import Mathlib

/-!
Verification development for the weather-cache core of the Dashboard
repository (`src/services/weather.service.ts`).

The TypeScript service is shallowly embedded as pure Lean functions:

* JavaScript numbers that hold coordinates, temperatures and cell bounds are
  modelled as rationals (`ℚ`); timestamps (`Date.now()` milliseconds) as `ℤ`.
* The two `Map`s of the service become association lists with explicit
  `mapGet` / `mapSet` / `mapDelete` operations; the mutable service state
  becomes an explicit `ServiceState` record threaded through the operations.
* The asynchronous `axios.get` call becomes a `FetchResult` oracle passed to
  `getWeather`; the returned record carries a `networkCalled` flag that is set
  exactly on the code path that performs the HTTP request.
* `Math.sin`/`cos`/`asin`/`sqrt` in the haversine distance become the real
  (`ℝ`) functions; this is the only noncomputable corner of the embedding.
-/

namespace Dashboard

/-- Source constant `PROXIMITY_KM = 5` (weather.service.ts line 21). -/
def PROXIMITY_KM : ℚ := 5

/-- Source constant `FRESH_TTL_MS = 10 * 60 * 1000` (line 22). -/
def FRESH_TTL_MS : ℤ := 10 * 60 * 1000

/-- Source constant `MAX_SHARED_CACHE_ENTRIES = 1000` (line 23). -/
def MAX_SHARED_CACHE_ENTRIES : ℕ := 1000

/-- Source interface `WeatherSummary` (lines 5-9).  `tempC` and `tempF` are
produced by `Math.round` and hence integral; we give them type `ℤ`. -/
structure WeatherSummary where
  condition : String
  tempC : ℤ
  tempF : ℤ
deriving DecidableEq

/-- Bucket key of the shared cache.  The source uses the precision-5 geohash
string of the coordinate; a precision-5 geohash corresponds bijectively to a
cell of the 4096 x 8192 latitude/longitude grid, and we use the cell-index
pair directly as the key (see `computeBucketKey`). -/
abbrev BucketKey := ℤ × ℤ

/-- Source interface `CacheEntry` (lines 13-19). -/
structure CacheEntry where
  bucketKey : BucketKey
  lat : ℚ
  long : ℚ
  weatherSummary : WeatherSummary
  fetchedAt : ℤ
  expiresAt : ℤ
deriving DecidableEq

/-- Mutable state of the `WeatherService` singleton: `perUserCache`,
`sharedCache` and `sharedLRU` (lines 34-39). -/
structure ServiceState where
  perUserCache : List (String × CacheEntry)
  sharedCache : List (BucketKey × CacheEntry)
  sharedLRU : List BucketKey
deriving DecidableEq

/-- State of a freshly constructed service (both maps empty, empty LRU list). -/
def initialState : ServiceState := ⟨[], [], []⟩

/-! ### Association-list model of the JavaScript `Map`

`mapGet`, `mapSet`, `mapDelete` model `Map.get`, `Map.set`, `Map.delete`.
`Map.set` keeps an existing key at its old position while our `mapSet`
re-appends it, but no operation of the service observes iteration order of a
map (only get/set/delete and size), so the models agree observationally. -/

/-- Model of `Map.get`: the value of the first (under well-formedness, only)
pair with the given key. -/
def mapGet [DecidableEq κ] (m : List (κ × α)) (k : κ) : Option α :=
  (m.find? (fun p => decide (p.1 = k))).map Prod.snd

/-- Model of `Map.delete`: remove the pair(s) with the given key. -/
def mapDelete [DecidableEq κ] (m : List (κ × α)) (k : κ) : List (κ × α) :=
  m.filter (fun p => decide (p.1 ≠ k))

/-- Model of `Map.set`: overwrite the slot for the key. -/
def mapSet [DecidableEq κ] (m : List (κ × α)) (k : κ) (v : α) : List (κ × α) :=
  mapDelete m k ++ [(k, v)]

/-- Keys of an association list (for `Map.size` and eviction reasoning). -/
def mapKeys [DecidableEq κ] (m : List (κ × α)) : List κ :=
  m.map Prod.fst

/-! ### Upstream payload and response mapping -/

/-- One element of the `weather` array of the OpenWeather payload; the source
reads only its `main` field (`data?.current?.weather?.[0]?.main`). -/
structure WeatherArrayItem where
  main : Option String
deriving DecidableEq

/-- The `current` object of the OpenWeather one-call payload; the source reads
`current.weather` and `current.temp`, each of which may be absent. -/
structure CurrentConditions where
  weather : Option (List WeatherArrayItem)
  temp : Option ℚ
deriving DecidableEq

/-- The JSON body (`resp.data`) of the one-call response; `current` may be
absent in a malformed payload. -/
structure OneCallData where
  current : Option CurrentConditions
deriving DecidableEq

/-- Outcome of the `axios.get` call: a 2xx response with a JSON body, or a
thrown error (transport failure, timeout or non-2xx status). -/
inductive FetchResult where
  | success (data : OneCallData)
  | failure
deriving DecidableEq

/-- JavaScript `Math.round`: round half toward positive infinity. -/
def jsRound (x : ℚ) : ℤ := ⌊x + 1/2⌋

/-- Summary construction of the fetch step (weather.service.ts lines 118-121):
`condition = data?.current?.weather?.[0]?.main ?? ""`,
`tempC = Math.round(data?.current?.temp ?? 0)`,
`tempF = Math.round((tempC * 9) / 5 + 32)`. -/
def buildSummary (data : OneCallData) : WeatherSummary :=
  let condition :=
    (((data.current.bind (·.weather)).bind List.head?).bind (·.main)).getD ""
  let tempC := jsRound ((data.current.bind (·.temp)).getD 0)
  let tempF := jsRound (((tempC : ℚ) * 9) / 5 + 32)
  { condition := condition, tempC := tempC, tempF := tempF }

/-! ### Bucketing engine

Modelled from the spec: `computeBucketKey` in the source calls
`geohash.encode(lat, lon, 5)` and the neighbor scan calls
`geohash.neighbors(bucketKey)` from the `ngeohash` dependency, whose code is
not part of `src/`.  The spec describes the bucketing engine as a
deterministic geohash-style encoding at a fixed precision with cells about
5 km wide at mid-latitudes, together with the 8 compass-direction neighbor
cells of a key, in implementation-defined order.  A precision-5 geohash
(25 bits: 12 latitude bits, 13 longitude bits) identifies exactly one cell of
the uniform 4096 x 8192 degree grid — latitude rows of 180/4096 ≈ 0.0439°
(≈ 4.89 km) and longitude columns of 360/8192 ≈ 0.0439° — and the string is in
bijection with the (row, column) pair, which we therefore use directly as the
bucket key. -/

/-- Latitude row of the precision-5 geohash grid: 4096 rows of 180/4096
degrees over [-90, 90]. -/
def latCell (lat : ℚ) : ℤ := ⌊(lat + 90) * 4096 / 180⌋

/-- Longitude column of the precision-5 geohash grid: 8192 columns of
360/8192 degrees over [-180, 180]. -/
def lonCell (lon : ℚ) : ℤ := ⌊(lon + 180) * 8192 / 360⌋

/-- Source `computeBucketKey` (lines 181-183): the grid cell of the
coordinate at geohash precision 5. -/
def computeBucketKey (lat lon : ℚ) : BucketKey := (latCell lat, lonCell lon)

/-- Modelled from the spec: `geohash.neighbors` returns the 8 cells adjacent
to a key (compass order N, NE, E, SE, S, SW, W, NW, wrapping the longitude
column at the antimeridian; enumeration order is implementation-defined). -/
def neighborKeys (k : BucketKey) : List BucketKey :=
  [ (k.1 + 1, k.2),
    (k.1 + 1, (k.2 + 1) % 8192),
    (k.1, (k.2 + 1) % 8192),
    (k.1 - 1, (k.2 + 1) % 8192),
    (k.1 - 1, k.2),
    (k.1 - 1, (k.2 - 1) % 8192),
    (k.1, (k.2 - 1) % 8192),
    (k.1 + 1, (k.2 - 1) % 8192) ]

/-! ### Distance engine -/

/-- Source `haversineKm` (lines 193-208): great-circle distance in km on a
sphere of radius 6371 km.  `Math.sin`, `Math.cos`, `Math.asin`, `Math.sqrt`,
`Math.min` and `Math.PI` become their real counterparts. -/
noncomputable def haversineKm (lat1 lon1 lat2 lon2 : ℝ) : ℝ :=
  let R : ℝ := 6371
  let toRad : ℝ → ℝ := fun d => d * Real.pi / 180
  let dLat := toRad (lat2 - lat1)
  let dLon := toRad (lon2 - lon1)
  let s1 := Real.sin (dLat / 2)
  let s2 := Real.sin (dLon / 2)
  let a := s1 * s1 + Real.cos (toRad lat1) * Real.cos (toRad lat2) * s2 * s2
  let c := 2 * Real.arcsin (min 1 (Real.sqrt a))
  R * c

/-- Source `withinKm` (lines 185-191): the haversine distance between the two
points is at most `maxKm`. -/
noncomputable def withinKm (aLat aLon bLat bLon : ℚ) (maxKm : ℚ) : Prop :=
  haversineKm (aLat : ℝ) (aLon : ℝ) (bLat : ℝ) (bLon : ℝ) ≤ (maxKm : ℝ)

/-! ### The service operations -/

/-- Validity-plus-proximity test applied to a cache entry by each of the three
read tiers of `getWeather`: the entry has not expired
(`entry.expiresAt > currentTime`) and its stored coordinate is within
`PROXIMITY_KM` of the queried coordinate. -/
noncomputable def entryUsable (e : CacheEntry) (currentTime : ℤ) (lat long : ℚ) : Prop :=
  e.expiresAt > currentTime ∧ withinKm e.lat e.long lat long PROXIMITY_KM

open Classical in
/-- Step 1 of `getWeather` (lines 54-67): the per-user entry, if present,
valid and in radius. -/
noncomputable def userHit (st : ServiceState) (userId : String) (currentTime : ℤ)
    (lat long : ℚ) : Option CacheEntry :=
  match mapGet st.perUserCache userId with
  | some e => if entryUsable e currentTime lat long then some e else none
  | none => none

open Classical in
/-- Step 2 of `getWeather` (lines 70-85): the shared-cache entry of the
coordinate's own bucket, if present, valid and in radius. -/
noncomputable def sharedOwnHit (st : ServiceState) (bucketKey : BucketKey)
    (currentTime : ℤ) (lat long : ℚ) : Option CacheEntry :=
  match mapGet st.sharedCache bucketKey with
  | some e => if entryUsable e currentTime lat long then some e else none
  | none => none

open Classical in
/-- Step 3 of `getWeather` (lines 86-104): scan the neighbor buckets in order
and return the first entry that is present, valid and in radius. -/
noncomputable def findNeighborHit (shared : List (BucketKey × CacheEntry))
    (currentTime : ℤ) (lat long : ℚ) : List BucketKey → Option CacheEntry
  | [] => none
  | nb :: rest =>
      match mapGet shared nb with
      | some e =>
          if entryUsable e currentTime lat long then some e
          else findNeighborHit shared currentTime lat long rest
      | none => findNeighborHit shared currentTime lat long rest

/-- The `while` loop of `upsertSharedCache` (lines 173-176): while the LRU
list is over capacity, shift its front key and delete that key from the
shared map. -/
def evictLoop : List (BucketKey × CacheEntry) → List BucketKey →
    List (BucketKey × CacheEntry) × List BucketKey
  | shared, [] => (shared, [])
  | shared, evict :: rest =>
      if (evict :: rest).length > MAX_SHARED_CACHE_ENTRIES then
        evictLoop (mapDelete shared evict) rest
      else (shared, evict :: rest)

/-- Source `upsertSharedCache` (lines 169-178): write the entry under its
bucket key, move the key to the most-recently-written end of the LRU list
(removing a prior occurrence first), then evict from the front while over
capacity. -/
def upsertSharedCache (st : ServiceState) (entry : CacheEntry) : ServiceState :=
  let shared := mapSet st.sharedCache entry.bucketKey entry
  let lru := st.sharedLRU.erase entry.bucketKey ++ [entry.bucketKey]
  let r := evictLoop shared lru
  { perUserCache := st.perUserCache, sharedCache := r.1, sharedLRU := r.2 }

/-- Result of one `getWeather` call: the returned summary (or `null`), the
service state after the call, and whether the code path that performs the
HTTP request was taken. -/
structure GetWeatherResult where
  summary : Option WeatherSummary
  state : ServiceState
  networkCalled : Bool
deriving DecidableEq

/-- Source `getWeather` (lines 43-144) as a state-passing function.  The
caller supplies the clock value `currentTime = Date.now()` and the outcome
`fetch` that `axios.get` would produce if the network step is reached;
`apiKey` models `process.env.OPEN_WEATHER_API_KEY`. -/
noncomputable def getWeather (apiKey : Option String) (st : ServiceState)
    (userId : String) (lat long : ℚ) (currentTime : ℤ)
    (fetch : FetchResult) : GetWeatherResult :=
  -- 1) Per-user cache
  match userHit st userId currentTime lat long with
  | some e => ⟨some e.weatherSummary, st, false⟩
  | none =>
    -- 2) Shared cache (bucket-based)
    let bucketKey := computeBucketKey lat long
    match sharedOwnHit st bucketKey currentTime lat long with
    | some e =>
        ⟨some e.weatherSummary,
         { st with perUserCache := mapSet st.perUserCache userId e }, false⟩
    | none =>
      -- Check neighbor buckets to reduce boundary misses
      match findNeighborHit st.sharedCache currentTime lat long (neighborKeys bucketKey) with
      | some e =>
          ⟨some e.weatherSummary,
           { st with perUserCache := mapSet st.perUserCache userId e }, false⟩
      | none =>
        -- 3) Network fetch
        match apiKey with
        | none => ⟨none, st, false⟩
        | some _ =>
          match fetch with
          | .failure => ⟨none, st, true⟩
          | .success data =>
              let summary := buildSummary data
              let entry : CacheEntry :=
                { bucketKey := bucketKey, lat := lat, long := long,
                  weatherSummary := summary, fetchedAt := currentTime,
                  expiresAt := currentTime + FRESH_TTL_MS }
              let st1 := upsertSharedCache st entry
              ⟨some summary,
               { st1 with perUserCache := mapSet st1.perUserCache userId entry },
               true⟩

/-- Source `clearUser` (lines 146-148). -/
def clearUser (st : ServiceState) (userId : String) : ServiceState :=
  { st with perUserCache := mapDelete st.perUserCache userId }

/-! ### Invariants referenced by the claims -/

/-- TTL discipline of a single cache entry: expiry is exactly `FRESH_TTL_MS`
after the fetch time. -/
def entryTTLOk (e : CacheEntry) : Prop := e.expiresAt - e.fetchedAt = FRESH_TTL_MS

/-- Every entry stored in either cache obeys the TTL discipline. -/
def TTLInv (st : ServiceState) : Prop :=
  (∀ p ∈ st.perUserCache, entryTTLOk p.2) ∧ (∀ p ∈ st.sharedCache, entryTTLOk p.2)

/-- Well-formedness of the shared tier: the LRU list has no duplicate keys,
it holds exactly the keys of the shared map, and it is within capacity. -/
def SharedInv (st : ServiceState) : Prop :=
  st.sharedLRU.Nodup ∧ (mapKeys st.sharedCache).Perm st.sharedLRU ∧
    st.sharedCache.length ≤ MAX_SHARED_CACHE_ENTRIES

/-! ### Lemmas about the association-list map model -/

@[simp] theorem mapGet_nil [DecidableEq κ] (k : κ) :
    mapGet ([] : List (κ × α)) k = none := rfl

theorem mapGet_cons [DecidableEq κ] (k k' : κ) (v : α) (m : List (κ × α)) :
    mapGet ((k', v) :: m) k = if k' = k then some v else mapGet m k := by
  by_cases h : k' = k <;> simp [mapGet, List.find?, h]

@[simp] theorem mapDelete_nil [DecidableEq κ] (k : κ) :
    mapDelete ([] : List (κ × α)) k = [] := rfl

theorem mapDelete_cons [DecidableEq κ] (k k' : κ) (v : α) (m : List (κ × α)) :
    mapDelete ((k', v) :: m) k =
      if k' = k then mapDelete m k else (k', v) :: mapDelete m k := by
  by_cases h : k' = k <;> simp [mapDelete, List.filter, h]

theorem mapGet_append_none [DecidableEq κ] {m₁ : List (κ × α)} (m₂ : List (κ × α))
    {k : κ} (h : mapGet m₁ k = none) : mapGet (m₁ ++ m₂) k = mapGet m₂ k := by
  unfold mapGet at h ⊢
  have hf : m₁.find? (fun p => decide (p.1 = k)) = none := by
    rcases ho : m₁.find? (fun p => decide (p.1 = k)) with _ | p
    · exact ho
    · rw [ho] at h; simp at h
  rw [List.find?_append, hf]
  simp

theorem mapGet_append_some [DecidableEq κ] {m₁ : List (κ × α)} (m₂ : List (κ × α))
    {k : κ} {v : α} (h : mapGet m₁ k = some v) : mapGet (m₁ ++ m₂) k = some v := by
  unfold mapGet at h ⊢
  rcases ho : m₁.find? (fun p => decide (p.1 = k)) with _ | p
  · rw [ho] at h; simp at h
  · rw [ho] at h
    rw [List.find?_append, ho]
    simpa using h

@[simp] theorem mapGet_delete_self [DecidableEq κ] (m : List (κ × α)) (k : κ) :
    mapGet (mapDelete m k) k = none := by
  induction m with
  | nil => rfl
  | cons p m ih =>
      rcases p with ⟨pk, pv⟩
      rw [mapDelete_cons]
      by_cases h : pk = k
      · simpa [h] using ih
      · rw [if_neg h, mapGet_cons, if_neg h]; exact ih

theorem mapGet_delete_ne [DecidableEq κ] (m : List (κ × α)) (k k' : κ)
    (h : k' ≠ k) : mapGet (mapDelete m k) k' = mapGet m k' := by
  induction m with
  | nil => rfl
  | cons p m ih =>
      rcases p with ⟨pk, pv⟩
      rw [mapDelete_cons, mapGet_cons]
      by_cases hp : pk = k
      · have hp' : pk ≠ k' := by rw [hp]; exact fun hh => h hh.symm
        rw [if_pos hp, if_neg hp']; exact ih
      · rw [if_neg hp, mapGet_cons]
        by_cases hq : pk = k'
        · rw [if_pos hq, if_pos hq]
        · rw [if_neg hq, if_neg hq]; exact ih

@[simp] theorem mapGet_set_self [DecidableEq κ] (m : List (κ × α)) (k : κ) (v : α) :
    mapGet (mapSet m k v) k = some v := by
  unfold mapSet
  rw [mapGet_append_none _ (mapGet_delete_self m k), mapGet_cons, if_pos rfl]

theorem mapGet_set_ne [DecidableEq κ] (m : List (κ × α)) (k k' : κ) (v : α)
    (h : k' ≠ k) : mapGet (mapSet m k v) k' = mapGet m k' := by
  unfold mapSet
  have hd : mapGet (mapDelete m k) k' = mapGet m k' := mapGet_delete_ne m k k' h
  rcases hg : mapGet m k' with _ | w
  · rw [mapGet_append_none _ (hd.trans hg), mapGet_cons, if_neg (Ne.symm h)]
    rfl
  · exact mapGet_append_some _ (hd.trans hg)

theorem mem_of_mapGet_some [DecidableEq κ] {m : List (κ × α)} {k : κ} {v : α}
    (h : mapGet m k = some v) : (k, v) ∈ m := by
  unfold mapGet at h
  rcases ho : m.find? (fun p => decide (p.1 = k)) with _ | p
  · rw [ho] at h; simp at h
  · rw [ho] at h
    have hp := List.find?_some ho
    have hm := List.mem_of_find?_eq_some ho
    simp at h hp
    rcases p with ⟨pk, pv⟩
    simp at hp
    subst hp
    simp at h
    subst h
    exact hm

theorem mem_mapSet [DecidableEq κ] {m : List (κ × α)} {k : κ} {v : α} {p : κ × α}
    (h : p ∈ mapSet m k v) : p ∈ m ∨ p = (k, v) := by
  unfold mapSet mapDelete at h
  rcases List.mem_append.mp h with h | h
  · exact Or.inl (List.mem_of_mem_filter h)
  · simp at h; exact Or.inr h

theorem mem_mapDelete [DecidableEq κ] {m : List (κ × α)} {k : κ} {p : κ × α}
    (h : p ∈ mapDelete m k) : p ∈ m :=
  List.mem_of_mem_filter h

theorem mapKeys_delete [DecidableEq κ] (m : List (κ × α)) (k : κ) :
    mapKeys (mapDelete m k) = (mapKeys m).filter (fun x => decide (x ≠ k)) := by
  induction m with
  | nil => rfl
  | cons p m ih =>
      rcases p with ⟨pk, pv⟩
      rw [mapDelete_cons]
      by_cases h : pk = k
      · subst h
        simpa [mapKeys, List.filter] using ih
      · simpa [mapKeys, List.filter, h] using ih

theorem mapKeys_set [DecidableEq κ] (m : List (κ × α)) (k : κ) (v : α) :
    mapKeys (mapSet m k v) = (mapKeys m).filter (fun x => decide (x ≠ k)) ++ [k] := by
  unfold mapSet
  rw [show mapKeys (mapDelete m k ++ [(k, v)]) =
        mapKeys (mapDelete m k) ++ [k] by simp [mapKeys]]
  rw [mapKeys_delete]

/-! ### Lemmas about the haversine distance -/

theorem haversineKm_self (lat lon : ℝ) : haversineKm lat lon lat lon = 0 := by
  unfold haversineKm
  simp [Real.arcsin_zero]

theorem haversineKm_comm (lat1 lon1 lat2 lon2 : ℝ) :
    haversineKm lat1 lon1 lat2 lon2 = haversineKm lat2 lon2 lat1 lon1 := by
  unfold haversineKm
  simp only
  have e1 : (lat1 - lat2) * Real.pi / 180 / 2 = -((lat2 - lat1) * Real.pi / 180 / 2) := by
    ring
  have e2 : (lon1 - lon2) * Real.pi / 180 / 2 = -((lon2 - lon1) * Real.pi / 180 / 2) := by
    ring
  rw [e1, e2, Real.sin_neg, Real.sin_neg]
  ring_nf

/-- On a common meridian the haversine formula collapses to arc length along
the meridian: `R` times the latitude difference in radians (for a difference
of at most half a turn). -/
theorem haversineKm_same_lon (a b lon : ℝ) (h0 : 0 ≤ b - a) (h180 : b - a ≤ 180) :
    haversineKm a lon b lon = 6371 * ((b - a) * Real.pi / 180) := by
  unfold haversineKm
  simp only [sub_self, zero_mul, zero_div, Real.sin_zero, mul_zero, add_zero]
  set x : ℝ := (b - a) * Real.pi / 180 / 2 with hxdef
  have hx0 : 0 ≤ x := by
    have := Real.pi_pos
    apply div_nonneg _ (by norm_num)
    apply div_nonneg _ (by norm_num)
    exact mul_nonneg h0 this.le
  have hxpi : x ≤ Real.pi / 2 := by
    rw [hxdef]
    rw [div_le_div_iff₀ (by norm_num) (by norm_num)]
    have : (b - a) * Real.pi ≤ 180 * Real.pi :=
      mul_le_mul_of_nonneg_right h180 Real.pi_pos.le
    calc (b - a) * Real.pi / 180 * 2 ≤ 180 * Real.pi / 180 * 2 := by
          have h2 : (b - a) * Real.pi / 180 ≤ 180 * Real.pi / 180 := by
            exact div_le_div_of_nonneg_right this (by norm_num)
          linarith
      _ = Real.pi * 2 := by ring
  have hsin0 : 0 ≤ Real.sin x :=
    Real.sin_nonneg_of_nonneg_of_le_pi hx0 (le_trans hxpi (by linarith [Real.pi_pos]))
  rw [Real.sqrt_mul_self hsin0]
  rw [min_eq_right (Real.sin_le_one x)]
  rw [Real.arcsin_sin (le_trans (by linarith [Real.pi_pos]) hx0) hxpi]
  rw [hxdef]
  ring

/-! ### Branch lemmas for the service operations -/

theorem userHit_of_usable {st : ServiceState} {userId : String} {t : ℤ}
    {lat long : ℚ} {e : CacheEntry} (hg : mapGet st.perUserCache userId = some e)
    (hu : entryUsable e t lat long) : userHit st userId t lat long = some e := by
  unfold userHit
  rw [hg]
  simp [hu]

theorem userHit_of_get_none {st : ServiceState} {userId : String} {t : ℤ}
    {lat long : ℚ} (hg : mapGet st.perUserCache userId = none) :
    userHit st userId t lat long = none := by
  unfold userHit
  rw [hg]

theorem sharedOwnHit_of_get_none {st : ServiceState} {bk : BucketKey} {t : ℤ}
    {lat long : ℚ} (hg : mapGet st.sharedCache bk = none) :
    sharedOwnHit st bk t lat long = none := by
  unfold sharedOwnHit
  rw [hg]

theorem sharedOwnHit_of_usable {st : ServiceState} {bk : BucketKey} {t : ℤ}
    {lat long : ℚ} {e : CacheEntry} (hg : mapGet st.sharedCache bk = some e)
    (hu : entryUsable e t lat long) : sharedOwnHit st bk t lat long = some e := by
  unfold sharedOwnHit
  rw [hg]
  simp [hu]

open Classical in
theorem sharedOwnHit_mem {st : ServiceState} {bk : BucketKey} {t : ℤ}
    {lat long : ℚ} {e : CacheEntry} (h : sharedOwnHit st bk t lat long = some e) :
    mapGet st.sharedCache bk = some e := by
  unfold sharedOwnHit at h
  rcases hg : mapGet st.sharedCache bk with _ | w
  · rw [hg] at h
    exact Option.noConfusion (show (none : Option CacheEntry) = some e from h)
  · rw [hg] at h
    have h' : (if entryUsable w t lat long then some w else none) = some e := h
    by_cases hu : entryUsable w t lat long
    · rw [if_pos hu] at h'; exact h'
    · rw [if_neg hu] at h'
      exact Option.noConfusion h'

theorem findNeighborHit_shared_nil (t : ℤ) (lat long : ℚ) (l : List BucketKey) :
    findNeighborHit [] t lat long l = none := by
  induction l with
  | nil => rfl
  | cons nb rest ih => simpa [findNeighborHit] using ih

open Classical in
theorem findNeighborHit_some_get {shared : List (BucketKey × CacheEntry)} {t : ℤ}
    {lat long : ℚ} {e : CacheEntry} : ∀ {l : List BucketKey},
    findNeighborHit shared t lat long l = some e →
    ∃ nb, mapGet shared nb = some e := by
  intro l
  induction l with
  | nil =>
      intro h
      exact Option.noConfusion (show (none : Option CacheEntry) = some e from h)
  | cons nb rest ih =>
      intro h
      unfold findNeighborHit at h
      rcases hg : mapGet shared nb with _ | w
      · rw [hg] at h; exact ih h
      · rw [hg] at h
        have h' : (if entryUsable w t lat long then some w
            else findNeighborHit shared t lat long rest) = some e := h
        by_cases hu : entryUsable w t lat long
        · rw [if_pos hu] at h'
          exact ⟨nb, by rw [hg, h']⟩
        · rw [if_neg hu] at h'; exact ih h'

theorem findNeighborHit_singleton_miss {kA : BucketKey} {eA : CacheEntry}
    {t : ℤ} {lat long : ℚ} {l : List BucketKey} (h : kA ∉ l) :
    findNeighborHit [(kA, eA)] t lat long l = none := by
  induction l with
  | nil => rfl
  | cons nb rest ih =>
      have hnb : nb ≠ kA := fun hh => h (hh ▸ List.mem_cons_self nb rest)
      have hg : mapGet [(kA, eA)] nb = none := by
        rw [mapGet_cons, if_neg (fun hh => hnb hh.symm)]
        rfl
      unfold findNeighborHit
      rw [hg]
      exact ih (fun hh => h (List.mem_cons_of_mem nb hh))

open Classical in
theorem findNeighborHit_singleton_hit {kA : BucketKey} {eA : CacheEntry}
    {t : ℤ} {lat long : ℚ} {l : List BucketKey} (hmem : kA ∈ l)
    (hu : entryUsable eA t lat long) :
    findNeighborHit [(kA, eA)] t lat long l = some eA := by
  induction l with
  | nil => exact (List.not_mem_nil kA hmem).elim
  | cons nb rest ih =>
      unfold findNeighborHit
      by_cases hnb : nb = kA
      · subst hnb
        rw [show mapGet [(nb, eA)] nb = some eA from by
          rw [mapGet_cons, if_pos rfl]]
        have hres : (if entryUsable eA t lat long then some eA
            else findNeighborHit [(nb, eA)] t lat long rest) = some eA := by
          rw [if_pos hu]
        exact hres
      · have hg : mapGet [(kA, eA)] nb = none := by
          rw [mapGet_cons, if_neg (fun hh => hnb hh.symm)]
          rfl
        rw [hg]
        rcases List.mem_cons.mp hmem with h1 | h2
        · exact (hnb h1.symm).elim
        · exact ih h2

/-! ### Evaluation lemmas for `getWeather`, one per control-flow outcome -/

theorem getWeather_user_hit {st : ServiceState} {userId : String} {t : ℤ}
    {lat long : ℚ} {e : CacheEntry} (apiKey : Option String) (fetch : FetchResult)
    (hu : userHit st userId t lat long = some e) :
    getWeather apiKey st userId lat long t fetch = ⟨some e.weatherSummary, st, false⟩ := by
  simp only [getWeather, hu]

theorem getWeather_shared_own_hit {st : ServiceState} {userId : String} {t : ℤ}
    {lat long : ℚ} {e : CacheEntry} (apiKey : Option String) (fetch : FetchResult)
    (hu : userHit st userId t lat long = none)
    (hs : sharedOwnHit st (computeBucketKey lat long) t lat long = some e) :
    getWeather apiKey st userId lat long t fetch =
      ⟨some e.weatherSummary,
       { st with perUserCache := mapSet st.perUserCache userId e }, false⟩ := by
  simp only [getWeather, hu, hs]

theorem getWeather_neighbor_hit {st : ServiceState} {userId : String} {t : ℤ}
    {lat long : ℚ} {e : CacheEntry} (apiKey : Option String) (fetch : FetchResult)
    (hu : userHit st userId t lat long = none)
    (hs : sharedOwnHit st (computeBucketKey lat long) t lat long = none)
    (hn : findNeighborHit st.sharedCache t lat long
            (neighborKeys (computeBucketKey lat long)) = some e) :
    getWeather apiKey st userId lat long t fetch =
      ⟨some e.weatherSummary,
       { st with perUserCache := mapSet st.perUserCache userId e }, false⟩ := by
  simp only [getWeather, hu, hs, hn]

theorem getWeather_no_key {st : ServiceState} {userId : String} {t : ℤ}
    {lat long : ℚ} (fetch : FetchResult)
    (hu : userHit st userId t lat long = none)
    (hs : sharedOwnHit st (computeBucketKey lat long) t lat long = none)
    (hn : findNeighborHit st.sharedCache t lat long
            (neighborKeys (computeBucketKey lat long)) = none) :
    getWeather none st userId lat long t fetch = ⟨none, st, false⟩ := by
  simp only [getWeather, hu, hs, hn]

theorem getWeather_fetch_failure {st : ServiceState} {userId : String} {t : ℤ}
    {lat long : ℚ} (key : String)
    (hu : userHit st userId t lat long = none)
    (hs : sharedOwnHit st (computeBucketKey lat long) t lat long = none)
    (hn : findNeighborHit st.sharedCache t lat long
            (neighborKeys (computeBucketKey lat long)) = none) :
    getWeather (some key) st userId lat long t .failure = ⟨none, st, true⟩ := by
  simp only [getWeather, hu, hs, hn]

theorem getWeather_fetch_success {st : ServiceState} {userId : String} {t : ℤ}
    {lat long : ℚ} (key : String) (data : OneCallData)
    (hu : userHit st userId t lat long = none)
    (hs : sharedOwnHit st (computeBucketKey lat long) t lat long = none)
    (hn : findNeighborHit st.sharedCache t lat long
            (neighborKeys (computeBucketKey lat long)) = none) :
    getWeather (some key) st userId lat long t (.success data) =
      ⟨some (buildSummary data),
       { upsertSharedCache st
           { bucketKey := computeBucketKey lat long, lat := lat, long := long,
             weatherSummary := buildSummary data, fetchedAt := t,
             expiresAt := t + FRESH_TTL_MS } with
         perUserCache :=
           mapSet st.perUserCache userId
             { bucketKey := computeBucketKey lat long, lat := lat, long := long,
               weatherSummary := buildSummary data, fetchedAt := t,
               expiresAt := t + FRESH_TTL_MS } },
       true⟩ := by
  simp only [getWeather, hu, hs, hn]
  rfl

/-! ### Lemmas about eviction and the shared-tier invariant -/

theorem evictLoop_of_le (shared : List (BucketKey × CacheEntry))
    (l : List BucketKey) (h : l.length ≤ MAX_SHARED_CACHE_ENTRIES) :
    evictLoop shared l = (shared, l) := by
  cases l with
  | nil => rfl
  | cons evict rest =>
      unfold evictLoop
      rw [if_neg (by omega)]

theorem evictLoop_mem {p : BucketKey × CacheEntry} :
    ∀ (l : List BucketKey) (shared : List (BucketKey × CacheEntry)),
    p ∈ (evictLoop shared l).1 → p ∈ shared := by
  intro l
  induction l with
  | nil => intro shared h; exact h
  | cons evict rest ih =>
      intro shared h
      unfold evictLoop at h
      by_cases hlen : (evict :: rest).length > MAX_SHARED_CACHE_ENTRIES
      · rw [if_pos hlen] at h
        exact mem_mapDelete (ih (mapDelete shared evict) h)
      · rw [if_neg hlen] at h
        exact h

theorem evictLoop_inv :
    ∀ (l : List BucketKey) (shared : List (BucketKey × CacheEntry)),
    l.Nodup → (mapKeys shared).Perm l →
    (evictLoop shared l).2.Nodup ∧
      (mapKeys (evictLoop shared l).1).Perm (evictLoop shared l).2 ∧
      (evictLoop shared l).2.length ≤ MAX_SHARED_CACHE_ENTRIES := by
  intro l
  induction l with
  | nil =>
      intro shared hnd hperm
      exact ⟨hnd, hperm, Nat.zero_le _⟩
  | cons evict rest ih =>
      intro shared hnd hperm
      unfold evictLoop
      by_cases hlen : (evict :: rest).length > MAX_SHARED_CACHE_ENTRIES
      · rw [if_pos hlen]
        apply ih (mapDelete shared evict) (List.Nodup.of_cons hnd)
        rw [mapKeys_delete]
        have hstep := hperm.filter (fun x => decide (x ≠ evict))
        have hnotmem : evict ∉ rest := (List.nodup_cons.mp hnd).1
        have hfr : (evict :: rest).filter (fun x => decide (x ≠ evict)) = rest := by
          rw [List.filter_cons]
          rw [show (decide (evict ≠ evict)) = false by simp]
          simp only [Bool.false_eq_true, if_false]
          exact List.filter_eq_self.mpr fun a ha => by
            simp only [decide_eq_true_eq]
            exact fun hh => hnotmem (hh ▸ ha)
        rw [hfr] at hstep
        exact hstep
      · rw [if_neg hlen]
        refine ⟨hnd, hperm, ?_⟩
        simpa using Nat.le_of_not_lt hlen

theorem upsert_lru_eq (st : ServiceState) (entry : CacheEntry) :
    (upsertSharedCache st entry).sharedLRU =
      (evictLoop (mapSet st.sharedCache entry.bucketKey entry)
        (st.sharedLRU.erase entry.bucketKey ++ [entry.bucketKey])).2 := rfl

theorem upsert_shared_eq (st : ServiceState) (entry : CacheEntry) :
    (upsertSharedCache st entry).sharedCache =
      (evictLoop (mapSet st.sharedCache entry.bucketKey entry)
        (st.sharedLRU.erase entry.bucketKey ++ [entry.bucketKey])).1 := rfl

theorem upsert_perUser_eq (st : ServiceState) (entry : CacheEntry) :
    (upsertSharedCache st entry).perUserCache = st.perUserCache := rfl

theorem sharedInv_preserved (st : ServiceState) (entry : CacheEntry)
    (hinv : SharedInv st) : SharedInv (upsertSharedCache st entry) := by
  obtain ⟨hnd, hperm, _⟩ := hinv
  set k := entry.bucketKey with hk
  have hnd1 : (st.sharedLRU.erase k ++ [k]).Nodup := by
    rw [List.nodup_append]
    refine ⟨hnd.erase k, List.nodup_singleton k, ?_⟩
    intro a ha hb
    simp at hb
    subst hb
    exact ((hnd.mem_erase_iff).mp ha).1 rfl
  have hperm1 : (mapKeys (mapSet st.sharedCache k entry)).Perm
      (st.sharedLRU.erase k ++ [k]) := by
    rw [mapKeys_set]
    apply List.Perm.append_right [k]
    have herase : st.sharedLRU.erase k = st.sharedLRU.filter (fun x => decide (x ≠ k)) := by
      have h2 := hnd.erase_eq_filter k
      have hfun : (fun (x : BucketKey) => x != k) =
          (fun (x : BucketKey) => decide (x ≠ k)) := by
        funext x
        by_cases hx : x = k <;> simp [hx]
      rw [h2, hfun]
    rw [herase]
    exact hperm.filter (fun x => decide (x ≠ k))
  have hloop := evictLoop_inv (st.sharedLRU.erase k ++ [k])
      (mapSet st.sharedCache k entry) hnd1 hperm1
  refine ⟨?_, ?_, ?_⟩
  · rw [upsert_lru_eq]; exact hloop.1
  · rw [upsert_lru_eq, upsert_shared_eq]; exact hloop.2.1
  · have hlen : (upsertSharedCache st entry).sharedCache.length =
        (upsertSharedCache st entry).sharedLRU.length := by
      rw [upsert_lru_eq, upsert_shared_eq]
      calc (evictLoop (mapSet st.sharedCache k entry)
              (st.sharedLRU.erase k ++ [k])).1.length
          = (mapKeys (evictLoop (mapSet st.sharedCache k entry)
              (st.sharedLRU.erase k ++ [k])).1).length := by
            simp [mapKeys]
        _ = _ := hloop.2.1.length_eq
    rw [hlen, upsert_lru_eq]
    exact hloop.2.2

/-! ### Lemmas about the TTL invariant -/

theorem ttlInv_initial : TTLInv initialState := by
  constructor <;> intro p hp <;> exact absurd hp (List.not_mem_nil p)

theorem ttlInv_set_perUser {st : ServiceState} {u : String} {e : CacheEntry}
    (hinv : TTLInv st) (he : entryTTLOk e) :
    TTLInv { st with perUserCache := mapSet st.perUserCache u e } := by
  obtain ⟨hu, hs⟩ := hinv
  refine ⟨?_, hs⟩
  intro p hp
  rcases mem_mapSet hp with h | h
  · exact hu p h
  · rw [h]; exact he

theorem ttlInv_shared_entry {st : ServiceState} {bk : BucketKey} {e : CacheEntry}
    (hinv : TTLInv st) (h : mapGet st.sharedCache bk = some e) : entryTTLOk e :=
  hinv.2 (bk, e) (mem_of_mapGet_some h)

theorem withinKm_self (lat long maxKm : ℚ) (h : 0 ≤ maxKm) :
    withinKm lat long lat long maxKm := by
  unfold withinKm
  rw [haversineKm_self]
  exact_mod_cast h

theorem sharedInv_initial : SharedInv initialState :=
  ⟨List.nodup_nil, List.Perm.refl [], by norm_num [initialState, MAX_SHARED_CACHE_ENTRIES]⟩

theorem upsert_empty (st : ServiceState) (e : CacheEntry)
    (h1 : st.sharedCache = []) (h2 : st.sharedLRU = []) :
    upsertSharedCache st e = ⟨st.perUserCache, [(e.bucketKey, e)], [e.bucketKey]⟩ := by
  have hset : mapSet st.sharedCache e.bucketKey e = [(e.bucketKey, e)] := by
    rw [h1]; rfl
  have hlru : st.sharedLRU.erase e.bucketKey ++ [e.bucketKey] = [e.bucketKey] := by
    rw [h2]; rfl
  show ({ perUserCache := st.perUserCache,
          sharedCache := (evictLoop (mapSet st.sharedCache e.bucketKey e)
            (st.sharedLRU.erase e.bucketKey ++ [e.bucketKey])).1,
          sharedLRU := (evictLoop (mapSet st.sharedCache e.bucketKey e)
            (st.sharedLRU.erase e.bucketKey ++ [e.bucketKey])).2 } : ServiceState) = _
  rw [hset, hlru, evictLoop_of_le _ _ (by norm_num [MAX_SHARED_CACHE_ENTRIES])]

/-- The eviction loop never deletes the slot of the key at the
most-recently-written end of the write-order list, provided that key does not
also occur among the keys in front of it: eviction only shifts front keys,
all distinct from it. -/
theorem evictLoop_get_last {k : BucketKey} {v : CacheEntry} :
    ∀ (l : List BucketKey) (m : List (BucketKey × CacheEntry)),
    k ∉ l → mapGet m k = some v →
    mapGet (evictLoop m (l ++ [k])).1 k = some v := by
  intro l
  induction l with
  | nil =>
      intro m _ hget
      show mapGet (evictLoop m [k]).1 k = some v
      rw [evictLoop_of_le m [k] (by norm_num [MAX_SHARED_CACHE_ENTRIES])]
      exact hget
  | cons h rest ih =>
      intro m hnot hget
      have hne : k ≠ h := fun hh => hnot (hh ▸ List.mem_cons_self h rest)
      have hrest : k ∉ rest := fun hh => hnot (List.mem_cons_of_mem h hh)
      show mapGet (evictLoop m (h :: (rest ++ [k]))).1 k = some v
      unfold evictLoop
      by_cases hlen : (h :: (rest ++ [k])).length > MAX_SHARED_CACHE_ENTRIES
      · rw [if_pos hlen]
        exact ih (mapDelete m h) hrest
          ((mapGet_delete_ne m h k hne).trans hget)
      · rw [if_neg hlen]
        exact hget

/-- After `upsertSharedCache`, the inserted entry is retrievable under its
bucket key: the key is re-appended at the most-recently-written end, so (with
a duplicate-free write-order list) it survives any eviction the insertion
triggers. -/
theorem upsert_get_self {st : ServiceState} (e : CacheEntry)
    (hnd : st.sharedLRU.Nodup) :
    mapGet (upsertSharedCache st e).sharedCache e.bucketKey = some e := by
  rw [upsert_shared_eq]
  apply evictLoop_get_last
  · intro hmem
    exact ((hnd.mem_erase_iff).mp hmem).1 rfl
  · exact mapGet_set_self _ _ _

/-! ### The claims -/

/-- C1: if the caller's per-user entry is present, unexpired
(`expiresAt > now`) and its stored coordinate is within 5 km (haversine) of
the queried coordinate, `getWeather` returns that entry's summary, leaves the
whole service state unchanged (no cache write), and performs no network
call. -/
theorem C1_per_user_hit_short_circuits
    (apiKey : Option String) (st : ServiceState) (userId : String)
    (lat long : ℚ) (t : ℤ) (fetch : FetchResult) (e : CacheEntry)
    (hGet : mapGet st.perUserCache userId = some e)
    (hValid : e.expiresAt > t)
    (hNear : withinKm e.lat e.long lat long PROXIMITY_KM) :
    getWeather apiKey st userId lat long t fetch =
      ⟨some e.weatherSummary, st, false⟩ :=
  getWeather_user_hit apiKey fetch (userHit_of_usable hGet ⟨hValid, hNear⟩)

/-- Witness for C1 at a concrete state: one cached entry for user `"u"` at the
queried coordinate, still valid at time 0. -/
theorem C1_per_user_hit_short_circuits_witness :
    getWeather none
        ⟨[("u", ⟨(0, 0), 0, 0, ⟨"Clear", 20, 68⟩, 0, 1⟩)], [], []⟩
        "u" 0 0 0 .failure =
      ⟨some ⟨"Clear", 20, 68⟩,
       ⟨[("u", ⟨(0, 0), 0, 0, ⟨"Clear", 20, 68⟩, 0, 1⟩)], [], []⟩, false⟩ :=
  C1_per_user_hit_short_circuits none _ "u" 0 0 0 .failure
    ⟨(0, 0), 0, 0, ⟨"Clear", 20, 68⟩, 0, 1⟩ rfl (by decide)
    (withinKm_self 0 0 PROXIMITY_KM (by norm_num [PROXIMITY_KM]))

/-- C7: when every cache tier misses and no API credential is configured,
`getWeather` returns `null`, leaves the state unchanged and performs no
network call. -/
theorem C7_no_api_key
    (st : ServiceState) (userId : String) (lat long : ℚ) (t : ℤ)
    (fetch : FetchResult)
    (hu : userHit st userId t lat long = none)
    (hs : sharedOwnHit st (computeBucketKey lat long) t lat long = none)
    (hn : findNeighborHit st.sharedCache t lat long
            (neighborKeys (computeBucketKey lat long)) = none) :
    getWeather none st userId lat long t fetch = ⟨none, st, false⟩ :=
  getWeather_no_key fetch hu hs hn

/-- Witness for C7 at the empty initial state. -/
theorem C7_no_api_key_witness :
    getWeather none initialState "u" 0 0 0 .failure = ⟨none, initialState, false⟩ :=
  C7_no_api_key initialState "u" 0 0 0 .failure rfl rfl
    (findNeighborHit_shared_nil 0 0 0 _)

/-- C9: `haversineKm` is a pure total function (it is a Lean function to `ℝ`)
that is symmetric in its two coordinate arguments and returns 0 for two
identical points. -/
theorem C9_haversine_pure_symmetric :
    (∀ lat1 lon1 lat2 lon2 : ℝ,
        haversineKm lat1 lon1 lat2 lon2 = haversineKm lat2 lon2 lat1 lon1) ∧
    (∀ lat lon : ℝ, haversineKm lat lon lat lon = 0) :=
  ⟨haversineKm_comm, haversineKm_self⟩

/-- C10: `clearUser u` removes at most user `u`'s per-user entry; every other
user's entry, the shared cache and the eviction list are unchanged. -/
theorem C10_clearUser_frame (st : ServiceState) (u : String) :
    (clearUser st u).sharedCache = st.sharedCache ∧
    (clearUser st u).sharedLRU = st.sharedLRU ∧
    mapGet (clearUser st u).perUserCache u = none ∧
    ∀ v, v ≠ u →
      mapGet (clearUser st u).perUserCache v = mapGet st.perUserCache v :=
  ⟨rfl, rfl, mapGet_delete_self _ _, fun _ hv => mapGet_delete_ne _ _ _ hv⟩

/-- Witness for C10: clearing `"u"` leaves `"v"`'s slot and the shared tier of
a concrete two-user state unchanged. -/
theorem C10_clearUser_frame_witness :
    (clearUser ⟨[("u", ⟨(0, 0), 0, 0, ⟨"Clear", 20, 68⟩, 0, 1⟩),
                 ("v", ⟨(0, 0), 0, 0, ⟨"Rain", 10, 50⟩, 0, 1⟩)],
                [((0, 0), ⟨(0, 0), 0, 0, ⟨"Clear", 20, 68⟩, 0, 1⟩)],
                [(0, 0)]⟩ "u").sharedLRU = [(0, 0)] ∧
    mapGet (clearUser ⟨[("u", ⟨(0, 0), 0, 0, ⟨"Clear", 20, 68⟩, 0, 1⟩),
                 ("v", ⟨(0, 0), 0, 0, ⟨"Rain", 10, 50⟩, 0, 1⟩)],
                [((0, 0), ⟨(0, 0), 0, 0, ⟨"Clear", 20, 68⟩, 0, 1⟩)],
                [(0, 0)]⟩ "u").perUserCache "v" =
      some ⟨(0, 0), 0, 0, ⟨"Rain", 10, 50⟩, 0, 1⟩ := by
  refine ⟨(C10_clearUser_frame _ "u").2.1, ?_⟩
  rw [(C10_clearUser_frame _ "u").2.2.2 "v" (by decide)]
  rfl

/-- C4: the shared cache is bounded.  Starting from the initial state, every
`upsertSharedCache` (`put`) preserves well-formedness and keeps the shared map
at no more than 1000 (`MAX_SHARED_CACHE_ENTRIES`) entries; moreover, when a
new distinct bucket key is inserted into a full cache, the key at the front
of the write-order sequence is evicted (its map slot is emptied and the
sequence becomes its tail with the new key appended at the
most-recently-written end). -/
theorem C4_shared_cache_capacity :
    SharedInv initialState ∧
    ∀ (st : ServiceState) (e : CacheEntry), SharedInv st →
      SharedInv (upsertSharedCache st e) ∧
      (upsertSharedCache st e).sharedCache.length ≤ MAX_SHARED_CACHE_ENTRIES ∧
      (∀ h rest, st.sharedLRU = h :: rest → e.bucketKey ∉ st.sharedLRU →
        st.sharedLRU.length = MAX_SHARED_CACHE_ENTRIES →
        (upsertSharedCache st e).sharedLRU = rest ++ [e.bucketKey] ∧
        mapGet (upsertSharedCache st e).sharedCache h = none) := by
  refine ⟨sharedInv_initial, ?_⟩
  intro st e hinv
  have hpres := sharedInv_preserved st e hinv
  refine ⟨hpres, hpres.2.2, ?_⟩
  intro h rest hlru hnew hfull
  have hlist : st.sharedLRU.erase e.bucketKey ++ [e.bucketKey] =
      h :: (rest ++ [e.bucketKey]) := by
    rw [List.erase_of_not_mem hnew, hlru]
    rfl
  have hlen2 : (rest ++ [e.bucketKey]).length = MAX_SHARED_CACHE_ENTRIES := by
    have hr : st.sharedLRU.length = rest.length + 1 := by rw [hlru]; rfl
    rw [List.length_append]
    simp only [List.length_singleton]
    omega
  have hloop : evictLoop (mapSet st.sharedCache e.bucketKey e)
      (st.sharedLRU.erase e.bucketKey ++ [e.bucketKey]) =
      (mapDelete (mapSet st.sharedCache e.bucketKey e) h, rest ++ [e.bucketKey]) := by
    rw [hlist]
    unfold evictLoop
    rw [if_pos (by simp only [List.length_cons, hlen2]; omega)]
    exact evictLoop_of_le _ _ (le_of_eq hlen2)
  constructor
  · rw [upsert_lru_eq, hloop]
  · rw [upsert_shared_eq, hloop]
    exact mapGet_delete_self _ _

/-- Witness for C4 at the initial state and one concrete entry. -/
theorem C4_shared_cache_capacity_witness :
    SharedInv (upsertSharedCache initialState ⟨(0, 0), 0, 0, ⟨"Clear", 20, 68⟩, 0, 1⟩) ∧
    (upsertSharedCache initialState
        ⟨(0, 0), 0, 0, ⟨"Clear", 20, 68⟩, 0, 1⟩).sharedCache.length ≤
      MAX_SHARED_CACHE_ENTRIES := by
  have h := C4_shared_cache_capacity.2 initialState
    ⟨(0, 0), 0, 0, ⟨"Clear", 20, 68⟩, 0, 1⟩ sharedInv_initial
  exact ⟨h.1, h.2.1⟩

/-- Helper for C5: `upsertSharedCache` preserves the TTL invariant when the
inserted entry satisfies it. -/
theorem ttlInv_upsert {st : ServiceState} {e : CacheEntry}
    (hinv : TTLInv st) (he : entryTTLOk e) : TTLInv (upsertSharedCache st e) := by
  obtain ⟨hu, hs⟩ := hinv
  constructor
  · rw [upsert_perUser_eq]; exact hu
  · intro p hp
    rw [upsert_shared_eq] at hp
    rcases mem_mapSet (evictLoop_mem _ _ hp) with h | h
    · exact hs p h
    · rw [h]; exact he

/-- C5: every entry ever stored in either cache satisfies
`expiresAt - fetchedAt = FRESH_TTL_MS`: the invariant holds in the initial
state, and it is preserved by `getWeather` (with any clock, credential and
fetch outcome) and by `clearUser`. -/
theorem C5_ttl_invariant :
    TTLInv initialState ∧
    (∀ (apiKey : Option String) (st : ServiceState) (userId : String)
        (lat long : ℚ) (t : ℤ) (fetch : FetchResult), TTLInv st →
      TTLInv (getWeather apiKey st userId lat long t fetch).state) ∧
    (∀ (st : ServiceState) (u : String), TTLInv st → TTLInv (clearUser st u)) := by
  refine ⟨ttlInv_initial, ?_, ?_⟩
  · intro apiKey st userId lat long t fetch hinv
    rcases hu : userHit st userId t lat long with _ | e
    · rcases hs : sharedOwnHit st (computeBucketKey lat long) t lat long with _ | e
      · rcases hn : findNeighborHit st.sharedCache t lat long
            (neighborKeys (computeBucketKey lat long)) with _ | e
        · cases apiKey with
          | none => rw [getWeather_no_key fetch hu hs hn]; exact hinv
          | some key =>
              cases fetch with
              | failure => rw [getWeather_fetch_failure key hu hs hn]; exact hinv
              | success data =>
                  rw [getWeather_fetch_success key data hu hs hn]
                  have hok : entryTTLOk
                      { bucketKey := computeBucketKey lat long, lat := lat,
                        long := long, weatherSummary := buildSummary data,
                        fetchedAt := t, expiresAt := t + FRESH_TTL_MS } := by
                    show t + FRESH_TTL_MS - t = FRESH_TTL_MS
                    ring
                  have h1 := ttlInv_upsert hinv hok
                  exact ttlInv_set_perUser h1 hok
        · obtain ⟨nb, hg⟩ := findNeighborHit_some_get hn
          rw [getWeather_neighbor_hit apiKey fetch hu hs hn]
          exact ttlInv_set_perUser hinv (ttlInv_shared_entry hinv hg)
      · rw [getWeather_shared_own_hit apiKey fetch hu hs]
        exact ttlInv_set_perUser hinv (ttlInv_shared_entry hinv (sharedOwnHit_mem hs))
    · rw [getWeather_user_hit apiKey fetch hu]
      exact hinv
  · intro st u hinv
    obtain ⟨hu, hs⟩ := hinv
    exact ⟨fun p hp => hu p (mem_mapDelete hp), hs⟩

/-- Witness for C5: the invariant after one concrete `getWeather` call and one
concrete `clearUser` call from the (invariant-satisfying) initial state. -/
theorem C5_ttl_invariant_witness :
    TTLInv (getWeather (some "k") initialState "u" 0 0 0
      (.success ⟨some ⟨some [⟨some "Clouds"⟩], some 20⟩⟩)).state ∧
    TTLInv (clearUser initialState "u") :=
  ⟨C5_ttl_invariant.2.1 (some "k") initialState "u" 0 0 0
      (.success ⟨some ⟨some [⟨some "Clouds"⟩], some 20⟩⟩) ttlInv_initial,
   C5_ttl_invariant.2.2 initialState "u" ttlInv_initial⟩

/-- C8: a call that returns a summary without a network call (a cache hit on
any of the three read tiers) leaves the shared map and the write-order
eviction sequence unchanged, and touches no per-user slot other than the
calling user's. -/
theorem C8_cache_hit_frame
    (apiKey : Option String) (st : ServiceState) (userId : String)
    (lat long : ℚ) (t : ℤ) (fetch : FetchResult)
    (hnc : (getWeather apiKey st userId lat long t fetch).networkCalled = false)
    (hsome : (getWeather apiKey st userId lat long t fetch).summary.isSome = true) :
    (getWeather apiKey st userId lat long t fetch).state.sharedCache = st.sharedCache ∧
    (getWeather apiKey st userId lat long t fetch).state.sharedLRU = st.sharedLRU ∧
    ∀ v, v ≠ userId →
      mapGet (getWeather apiKey st userId lat long t fetch).state.perUserCache v =
        mapGet st.perUserCache v := by
  rcases hu : userHit st userId t lat long with _ | e
  · rcases hs : sharedOwnHit st (computeBucketKey lat long) t lat long with _ | e
    · rcases hn : findNeighborHit st.sharedCache t lat long
          (neighborKeys (computeBucketKey lat long)) with _ | e
      · cases apiKey with
        | none =>
            rw [getWeather_no_key fetch hu hs hn]
            exact ⟨rfl, rfl, fun v _ => rfl⟩
        | some key =>
            cases fetch with
            | failure =>
                rw [getWeather_fetch_failure key hu hs hn] at hsome
                simp at hsome
            | success data =>
                rw [getWeather_fetch_success key data hu hs hn] at hnc
                simp at hnc
      · rw [getWeather_neighbor_hit apiKey fetch hu hs hn]
        exact ⟨rfl, rfl, fun v hv => mapGet_set_ne _ _ _ _ hv⟩
    · rw [getWeather_shared_own_hit apiKey fetch hu hs]
      exact ⟨rfl, rfl, fun v hv => mapGet_set_ne _ _ _ _ hv⟩
  · rw [getWeather_user_hit apiKey fetch hu]
    exact ⟨rfl, rfl, fun v _ => rfl⟩

/-- Witness for C8 at a concrete per-user cache hit. -/
theorem C8_cache_hit_frame_witness :
    (getWeather none ⟨[("u", ⟨(0, 0), 0, 0, ⟨"Clear", 20, 68⟩, 0, 1⟩)],
        [], []⟩ "u" 0 0 0 .failure).state.sharedCache = [] ∧
    mapGet (getWeather none ⟨[("u", ⟨(0, 0), 0, 0, ⟨"Clear", 20, 68⟩, 0, 1⟩)],
        [], []⟩ "u" 0 0 0 .failure).state.perUserCache "v" =
      mapGet [("u", (⟨(0, 0), 0, 0, ⟨"Clear", 20, 68⟩, 0, 1⟩ : CacheEntry))] "v" := by
  have heval := @getWeather_user_hit
    ⟨[("u", ⟨(0, 0), 0, 0, ⟨"Clear", 20, 68⟩, 0, 1⟩)], [], []⟩
    "u" 0 0 0 ⟨(0, 0), 0, 0, ⟨"Clear", 20, 68⟩, 0, 1⟩ none .failure
    (userHit_of_usable rfl
      ⟨by decide, withinKm_self 0 0 PROXIMITY_KM (by norm_num [PROXIMITY_KM])⟩)
  have h := C8_cache_hit_frame none _ "u" 0 0 0 .failure
    (by rw [heval]) (by rw [heval]; rfl)
  exact ⟨h.1, h.2.2 "v" (by decide)⟩

/-- C6: on a successful fetch whose payload carries the raw Celsius reading
`raw`, the returned summary has `tempC = round(raw)` and
`tempF = round(round(raw) * 9 / 5 + 32)` — Fahrenheit is derived from the
already-rounded Celsius value (double rounding). -/
theorem C6_double_rounding
    (key : String) (st : ServiceState) (userId : String) (lat long : ℚ) (t : ℤ)
    (data : OneCallData) (c : CurrentConditions) (raw : ℚ)
    (hu : userHit st userId t lat long = none)
    (hs : sharedOwnHit st (computeBucketKey lat long) t lat long = none)
    (hn : findNeighborHit st.sharedCache t lat long
            (neighborKeys (computeBucketKey lat long)) = none)
    (hc : data.current = some c) (ht : c.temp = some raw) :
    ∃ s, (getWeather (some key) st userId lat long t (.success data)).summary = some s ∧
      s.tempC = jsRound raw ∧
      s.tempF = jsRound (((jsRound raw : ℚ) * 9) / 5 + 32) := by
  refine ⟨buildSummary data, ?_, ?_, ?_⟩
  · rw [getWeather_fetch_success key data hu hs hn]
  · show jsRound ((data.current.bind (·.temp)).getD 0) = jsRound raw
    rw [hc]
    simp [Option.bind, ht]
  · show jsRound (((jsRound ((data.current.bind (·.temp)).getD 0) : ℚ) * 9) / 5 + 32) = _
    rw [hc]
    simp [Option.bind, ht]

/-- Witness for C6: raw reading 20.75 °C gives `tempC = 21` and
`tempF = round(21 * 9 / 5 + 32) = 70` at the initial state. -/
theorem C6_double_rounding_witness :
    ∃ s, (getWeather (some "k") initialState "u" 0 0 0
        (.success ⟨some ⟨some [⟨some "Clouds"⟩], some (83/4)⟩⟩)).summary = some s ∧
      s.tempC = 21 ∧ s.tempF = 70 := by
  obtain ⟨s, h1, h2, h3⟩ := C6_double_rounding "k" initialState "u" 0 0 0
    ⟨some ⟨some [⟨some "Clouds"⟩], some (83/4)⟩⟩ ⟨some [⟨some "Clouds"⟩], some (83/4)⟩
    (83/4) rfl rfl (findNeighborHit_shared_nil 0 0 0 _) rfl rfl
  refine ⟨s, h1, ?_, ?_⟩
  · rw [h2]
    norm_num [jsRound]
  · rw [h3]
    norm_num [jsRound]

/-- C2 fails on the code: a 2xx response whose payload is missing the
current-conditions object is NOT treated as a fetch failure.  At the initial
state, `getWeather` on such a payload returns the defaulted summary
(condition `""`, 0 °C, 32 °F) instead of `null`, and writes a cache entry
(the per-user cache is no longer empty). -/
theorem C2_counterexample :
    (getWeather (some "k") initialState "u" 0 0 0 (.success ⟨none⟩)).summary =
      some ⟨"", 0, 32⟩ ∧
    (getWeather (some "k") initialState "u" 0 0 0
        (.success ⟨none⟩)).state.perUserCache ≠ initialState.perUserCache := by
  rw [@getWeather_fetch_success initialState "u" 0 0 0 "k" ⟨none⟩ rfl rfl
    (findNeighborHit_shared_nil 0 0 0 _)]
  constructor
  · show some (buildSummary ⟨none⟩) = some ⟨"", 0, 32⟩
    unfold buildSummary jsRound
    norm_num
  · intro hcontra
    have : (mapSet ([] : List (String × CacheEntry)) "u" _ : List (String × CacheEntry)) = [] := hcontra
    simp [mapSet, mapDelete] at this

/-- C2 (amended): only errors raised by the HTTP client (network, timeout,
non-2xx status) are treated as fetch failures — `getWeather` then returns
`null` with both caches completely unchanged.  A 2xx response with a
malformed payload is not a failure: its missing fields are defaulted
(condition to `""`, temperature to 0 °C, hence 32 °F) and the resulting
summary is returned and written to both caches — to the calling user's
per-user slot and to the shared tier under the coordinate's bucket key (the
latter in any state whose write-order list has no duplicate keys, a
well-formedness invariant of every reachable state, cf. `SharedInv`). -/
theorem C2_amended_failure_vs_malformed
    (key : String) (st : ServiceState) (userId : String) (lat long : ℚ) (t : ℤ)
    (hu : userHit st userId t lat long = none)
    (hs : sharedOwnHit st (computeBucketKey lat long) t lat long = none)
    (hn : findNeighborHit st.sharedCache t lat long
            (neighborKeys (computeBucketKey lat long)) = none)
    (hNodup : st.sharedLRU.Nodup) :
    getWeather (some key) st userId lat long t .failure = ⟨none, st, true⟩ ∧
    (∀ data : OneCallData,
      (getWeather (some key) st userId lat long t (.success data)).summary =
          some (buildSummary data) ∧
      (getWeather (some key) st userId lat long t (.success data)).networkCalled = true ∧
      mapGet (getWeather (some key) st userId lat long t
          (.success data)).state.perUserCache userId =
        some { bucketKey := computeBucketKey lat long, lat := lat, long := long,
               weatherSummary := buildSummary data, fetchedAt := t,
               expiresAt := t + FRESH_TTL_MS } ∧
      mapGet (getWeather (some key) st userId lat long t
          (.success data)).state.sharedCache (computeBucketKey lat long) =
        some { bucketKey := computeBucketKey lat long, lat := lat, long := long,
               weatherSummary := buildSummary data, fetchedAt := t,
               expiresAt := t + FRESH_TTL_MS }) ∧
    buildSummary ⟨none⟩ = ⟨"", 0, 32⟩ := by
  refine ⟨getWeather_fetch_failure key hu hs hn, ?_, ?_⟩
  · intro data
    rw [getWeather_fetch_success key data hu hs hn]
    exact ⟨rfl, rfl, mapGet_set_self _ _ _, upsert_get_self _ hNodup⟩
  · unfold buildSummary jsRound
    norm_num

/-- Witness for C2 (amended) at the empty initial state: the thrown-error
call leaves everything untouched, while the malformed-payload call returns
the defaulted summary and the entry is retrievable from the shared tier. -/
theorem C2_amended_failure_vs_malformed_witness :
    getWeather (some "k") initialState "u" 0 0 0 .failure =
      ⟨none, initialState, true⟩ ∧
    (getWeather (some "k") initialState "u" 0 0 0 (.success ⟨none⟩)).summary =
      some (buildSummary ⟨none⟩) ∧
    mapGet (getWeather (some "k") initialState "u" 0 0 0
        (.success ⟨none⟩)).state.sharedCache (computeBucketKey 0 0) =
      some { bucketKey := computeBucketKey 0 0, lat := 0, long := 0,
             weatherSummary := buildSummary ⟨none⟩, fetchedAt := 0,
             expiresAt := 0 + FRESH_TTL_MS } := by
  have h := C2_amended_failure_vs_malformed "k" initialState "u" 0 0 0 rfl rfl
    (findNeighborHit_shared_nil 0 0 0 _) List.nodup_nil
  exact ⟨h.1, (h.2.1 ⟨none⟩).1, (h.2.1 ⟨none⟩).2.2.2⟩

/-- C3 (amended): starting from a state with an empty shared tier, after user
A completes a successful fetch at A's coordinate, a later call by a distinct
user B (who has no per-user entry) at a coordinate within 5 km and within the
freshness window returns A's cached summary without a network call and leaves
A's entry in B's per-user slot — provided B's query bucket equals A's bucket
or has A's bucket among its 8 neighbor cells. -/
theorem C3_amended_shared_visibility
    (key : String) (st0 : ServiceState) (userA userB : String)
    (latA lonA latB lonB : ℚ) (tA tB : ℤ) (dataA : OneCallData)
    (fetchB : FetchResult)
    (hShared : st0.sharedCache = []) (hLRU : st0.sharedLRU = [])
    (hA : mapGet st0.perUserCache userA = none)
    (hB : mapGet st0.perUserCache userB = none)
    (hABne : userB ≠ userA)
    (hFresh : tB < tA + FRESH_TTL_MS)
    (hNear : withinKm latA lonA latB lonB PROXIMITY_KM)
    (hBucket : computeBucketKey latB lonB = computeBucketKey latA lonA ∨
      computeBucketKey latA lonA ∈ neighborKeys (computeBucketKey latB lonB)) :
    (getWeather (some key)
        (getWeather (some key) st0 userA latA lonA tA (.success dataA)).state
        userB latB lonB tB fetchB).summary = some (buildSummary dataA) ∧
    (getWeather (some key)
        (getWeather (some key) st0 userA latA lonA tA (.success dataA)).state
        userB latB lonB tB fetchB).networkCalled = false ∧
    mapGet (getWeather (some key)
        (getWeather (some key) st0 userA latA lonA tA (.success dataA)).state
        userB latB lonB tB fetchB).state.perUserCache userB =
      some { bucketKey := computeBucketKey latA lonA, lat := latA, long := lonA,
             weatherSummary := buildSummary dataA, fetchedAt := tA,
             expiresAt := tA + FRESH_TTL_MS } := by
  have huA : userHit st0 userA tA latA lonA = none := userHit_of_get_none hA
  have hsA : sharedOwnHit st0 (computeBucketKey latA lonA) tA latA lonA = none :=
    sharedOwnHit_of_get_none (by rw [hShared]; rfl)
  have hnA : findNeighborHit st0.sharedCache tA latA lonA
      (neighborKeys (computeBucketKey latA lonA)) = none := by
    rw [hShared]; exact findNeighborHit_shared_nil _ _ _ _
  have h1 := getWeather_fetch_success key dataA huA hsA hnA
  have hst1 : (getWeather (some key) st0 userA latA lonA tA (.success dataA)).state =
      ⟨mapSet st0.perUserCache userA
         { bucketKey := computeBucketKey latA lonA, lat := latA, long := lonA,
           weatherSummary := buildSummary dataA, fetchedAt := tA,
           expiresAt := tA + FRESH_TTL_MS },
       [(computeBucketKey latA lonA,
         { bucketKey := computeBucketKey latA lonA, lat := latA, long := lonA,
           weatherSummary := buildSummary dataA, fetchedAt := tA,
           expiresAt := tA + FRESH_TTL_MS })],
       [computeBucketKey latA lonA]⟩ := by
    rw [h1]
    show ({ upsertSharedCache st0 _ with perUserCache := _ } : ServiceState) = _
    rw [upsert_empty st0 _ hShared hLRU]
  rw [hst1]
  have huB : userHit
      (⟨mapSet st0.perUserCache userA
          { bucketKey := computeBucketKey latA lonA, lat := latA, long := lonA,
            weatherSummary := buildSummary dataA, fetchedAt := tA,
            expiresAt := tA + FRESH_TTL_MS },
        [(computeBucketKey latA lonA,
          { bucketKey := computeBucketKey latA lonA, lat := latA, long := lonA,
            weatherSummary := buildSummary dataA, fetchedAt := tA,
            expiresAt := tA + FRESH_TTL_MS })],
        [computeBucketKey latA lonA]⟩ : ServiceState) userB tB latB lonB = none := by
    apply userHit_of_get_none
    show mapGet (mapSet st0.perUserCache userA _) userB = none
    rw [mapGet_set_ne _ _ _ _ hABne, hB]
  have husable : entryUsable
      { bucketKey := computeBucketKey latA lonA, lat := latA, long := lonA,
        weatherSummary := buildSummary dataA, fetchedAt := tA,
        expiresAt := tA + FRESH_TTL_MS } tB latB lonB := by
    constructor
    · show tA + FRESH_TTL_MS > tB
      omega
    · exact hNear
  by_cases hkk : computeBucketKey latB lonB = computeBucketKey latA lonA
  · -- own-cell hit
    have hsB : sharedOwnHit
        (⟨mapSet st0.perUserCache userA
            { bucketKey := computeBucketKey latA lonA, lat := latA, long := lonA,
              weatherSummary := buildSummary dataA, fetchedAt := tA,
              expiresAt := tA + FRESH_TTL_MS },
          [(computeBucketKey latA lonA,
            { bucketKey := computeBucketKey latA lonA, lat := latA, long := lonA,
              weatherSummary := buildSummary dataA, fetchedAt := tA,
              expiresAt := tA + FRESH_TTL_MS })],
          [computeBucketKey latA lonA]⟩ : ServiceState)
        (computeBucketKey latB lonB) tB latB lonB =
        some { bucketKey := computeBucketKey latA lonA, lat := latA, long := lonA,
               weatherSummary := buildSummary dataA, fetchedAt := tA,
               expiresAt := tA + FRESH_TTL_MS } := by
      apply sharedOwnHit_of_usable _ husable
      show mapGet [(computeBucketKey latA lonA, _)] (computeBucketKey latB lonB) = _
      rw [hkk, mapGet_cons, if_pos rfl]
    rw [getWeather_shared_own_hit (some key) fetchB huB hsB]
    exact ⟨rfl, rfl, mapGet_set_self _ _ _⟩
  · -- neighbor-cell hit
    have hmem : computeBucketKey latA lonA ∈
        neighborKeys (computeBucketKey latB lonB) := hBucket.resolve_left hkk
    have hsB : sharedOwnHit
        (⟨mapSet st0.perUserCache userA
            { bucketKey := computeBucketKey latA lonA, lat := latA, long := lonA,
              weatherSummary := buildSummary dataA, fetchedAt := tA,
              expiresAt := tA + FRESH_TTL_MS },
          [(computeBucketKey latA lonA,
            { bucketKey := computeBucketKey latA lonA, lat := latA, long := lonA,
              weatherSummary := buildSummary dataA, fetchedAt := tA,
              expiresAt := tA + FRESH_TTL_MS })],
          [computeBucketKey latA lonA]⟩ : ServiceState)
        (computeBucketKey latB lonB) tB latB lonB = none := by
      apply sharedOwnHit_of_get_none
      show mapGet [(computeBucketKey latA lonA, _)] (computeBucketKey latB lonB) = none
      rw [mapGet_cons, if_neg (fun hh => hkk hh.symm)]
      rfl
    have hnB : findNeighborHit
        [(computeBucketKey latA lonA,
          { bucketKey := computeBucketKey latA lonA, lat := latA, long := lonA,
            weatherSummary := buildSummary dataA, fetchedAt := tA,
            expiresAt := tA + FRESH_TTL_MS })] tB latB lonB
        (neighborKeys (computeBucketKey latB lonB)) =
        some { bucketKey := computeBucketKey latA lonA, lat := latA, long := lonA,
               weatherSummary := buildSummary dataA, fetchedAt := tA,
               expiresAt := tA + FRESH_TTL_MS } :=
      findNeighborHit_singleton_hit hmem husable
    rw [getWeather_neighbor_hit (some key) fetchB huB hsB hnB]
    exact ⟨rfl, rfl, mapGet_set_self _ _ _⟩

/-- Witness for C3 (amended): both users at the same coordinate (distance 0,
same bucket), B calling 1 ms after A's fetch. -/
theorem C3_amended_shared_visibility_witness :
    (getWeather (some "k")
        (getWeather (some "k") initialState "a" 0 0 0
          (.success ⟨some ⟨some [⟨some "Clouds"⟩], some 20⟩⟩)).state
        "b" 0 0 1 .failure).summary =
      some (buildSummary ⟨some ⟨some [⟨some "Clouds"⟩], some 20⟩⟩) ∧
    (getWeather (some "k")
        (getWeather (some "k") initialState "a" 0 0 0
          (.success ⟨some ⟨some [⟨some "Clouds"⟩], some 20⟩⟩)).state
        "b" 0 0 1 .failure).networkCalled = false := by
  have h := C3_amended_shared_visibility "k" initialState "a" "b" 0 0 0 0 0 1
    ⟨some ⟨some [⟨some "Clouds"⟩], some 20⟩⟩ .failure rfl rfl rfl rfl
    (by decide) (by decide)
    (withinKm_self 0 0 PROXIMITY_KM (by norm_num [PROXIMITY_KM]))
    (Or.inl rfl)
  exact ⟨h.1, h.2.1⟩

/-- C3 fails on the code as universally stated: the latitudes 5759/131072
(≈ 0.043937°, just below the top of its ≈ 4.89 km grid row) and 11647/131072
(≈ 0.088866°) are ≈ 4.995 km apart — within the 5 km radius — but lie two
grid rows apart, so B's bucket is neither A's bucket nor one of its 8
neighbors.  After A's successful fetch, B (fresh per-user slot, 1 ms later,
no eviction) misses every cache tier: the call performs a network fetch and
returns B's own upstream answer, not A's cached summary. -/
theorem C3_counterexample :
    withinKm (5759/131072) 0 (11647/131072) 0 PROXIMITY_KM ∧
    (getWeather (some "k")
        (getWeather (some "k") initialState "a" (5759/131072) 0 0
          (.success ⟨some ⟨some [⟨some "Clouds"⟩], some 20⟩⟩)).state
        "b" (11647/131072) 0 1
        (.success ⟨some ⟨some [⟨some "Rain"⟩], some 25⟩⟩)).networkCalled = true ∧
    (getWeather (some "k")
        (getWeather (some "k") initialState "a" (5759/131072) 0 0
          (.success ⟨some ⟨some [⟨some "Clouds"⟩], some 20⟩⟩)).state
        "b" (11647/131072) 0 1
        (.success ⟨some ⟨some [⟨some "Rain"⟩], some 25⟩⟩)).summary =
      some (buildSummary ⟨some ⟨some [⟨some "Rain"⟩], some 25⟩⟩) ∧
    buildSummary ⟨some ⟨some [⟨some "Rain"⟩], some 25⟩⟩ ≠
      buildSummary ⟨some ⟨some [⟨some "Clouds"⟩], some 20⟩⟩ := by
  have hkA : computeBucketKey (5759/131072) 0 = (2048, 4096) := by
    have h1 : latCell (5759/131072) = 2048 := by unfold latCell; norm_num
    have h2 : lonCell 0 = 4096 := by unfold lonCell; norm_num
    unfold computeBucketKey
    rw [h1, h2]
  have hkB : computeBucketKey (11647/131072) 0 = (2050, 4096) := by
    have h1 : latCell (11647/131072) = 2050 := by unfold latCell; norm_num
    have h2 : lonCell 0 = 4096 := by unfold lonCell; norm_num
    unfold computeBucketKey
    rw [h1, h2]
  have hdist : withinKm (5759/131072) 0 (11647/131072) 0 PROXIMITY_KM := by
    unfold withinKm
    have hsub : ((11647/131072 : ℚ) : ℝ) - ((5759/131072 : ℚ) : ℝ) = 23/512 := by
      push_cast
      norm_num
    rw [haversineKm_same_lon _ _ _ (by rw [hsub]; norm_num) (by rw [hsub]; norm_num)]
    rw [hsub]
    have hcast : ((PROXIMITY_KM : ℚ) : ℝ) = 5 := by norm_num [PROXIMITY_KM]
    rw [hcast]
    nlinarith [Real.pi_lt_d4, Real.pi_pos]
  have h1 := @getWeather_fetch_success initialState "a" 0 (5759/131072) 0 "k"
    ⟨some ⟨some [⟨some "Clouds"⟩], some 20⟩⟩ rfl rfl
    (findNeighborHit_shared_nil 0 (5759/131072) 0 _)
  have hst1 : (getWeather (some "k") initialState "a" (5759/131072) 0 0
      (.success ⟨some ⟨some [⟨some "Clouds"⟩], some 20⟩⟩)).state =
      ⟨mapSet initialState.perUserCache "a"
         { bucketKey := computeBucketKey (5759/131072) 0, lat := 5759/131072,
           long := 0,
           weatherSummary := buildSummary ⟨some ⟨some [⟨some "Clouds"⟩], some 20⟩⟩,
           fetchedAt := 0, expiresAt := 0 + FRESH_TTL_MS },
       [(computeBucketKey (5759/131072) 0,
         { bucketKey := computeBucketKey (5759/131072) 0, lat := 5759/131072,
           long := 0,
           weatherSummary := buildSummary ⟨some ⟨some [⟨some "Clouds"⟩], some 20⟩⟩,
           fetchedAt := 0, expiresAt := 0 + FRESH_TTL_MS })],
       [computeBucketKey (5759/131072) 0]⟩ := by
    rw [h1]
    show ({ upsertSharedCache initialState _ with perUserCache := _ } : ServiceState) = _
    rw [upsert_empty initialState _ rfl rfl]
  have huB : userHit
      (⟨mapSet initialState.perUserCache "a"
          { bucketKey := computeBucketKey (5759/131072) 0, lat := 5759/131072,
            long := 0,
            weatherSummary := buildSummary ⟨some ⟨some [⟨some "Clouds"⟩], some 20⟩⟩,
            fetchedAt := 0, expiresAt := 0 + FRESH_TTL_MS },
        [(computeBucketKey (5759/131072) 0,
          { bucketKey := computeBucketKey (5759/131072) 0, lat := 5759/131072,
            long := 0,
            weatherSummary := buildSummary ⟨some ⟨some [⟨some "Clouds"⟩], some 20⟩⟩,
            fetchedAt := 0, expiresAt := 0 + FRESH_TTL_MS })],
        [computeBucketKey (5759/131072) 0]⟩ : ServiceState)
      "b" 1 (11647/131072) 0 = none := by
    apply userHit_of_get_none
    show mapGet (mapSet initialState.perUserCache "a" _) "b" = none
    rw [mapGet_set_ne _ _ _ _ (by decide : ("b" : String) ≠ "a")]
    rfl
  have hkne : ¬(computeBucketKey (5759/131072) 0 = computeBucketKey (11647/131072) 0) := by
    rw [hkA, hkB]
    decide
  have hsB : sharedOwnHit
      (⟨mapSet initialState.perUserCache "a"
          { bucketKey := computeBucketKey (5759/131072) 0, lat := 5759/131072,
            long := 0,
            weatherSummary := buildSummary ⟨some ⟨some [⟨some "Clouds"⟩], some 20⟩⟩,
            fetchedAt := 0, expiresAt := 0 + FRESH_TTL_MS },
        [(computeBucketKey (5759/131072) 0,
          { bucketKey := computeBucketKey (5759/131072) 0, lat := 5759/131072,
            long := 0,
            weatherSummary := buildSummary ⟨some ⟨some [⟨some "Clouds"⟩], some 20⟩⟩,
            fetchedAt := 0, expiresAt := 0 + FRESH_TTL_MS })],
        [computeBucketKey (5759/131072) 0]⟩ : ServiceState)
      (computeBucketKey (11647/131072) 0) 1 (11647/131072) 0 = none := by
    apply sharedOwnHit_of_get_none
    show mapGet [(computeBucketKey (5759/131072) 0, _)]
      (computeBucketKey (11647/131072) 0) = none
    rw [mapGet_cons, if_neg hkne]
    rfl
  have hmemne : computeBucketKey (5759/131072) 0 ∉
      neighborKeys (computeBucketKey (11647/131072) 0) := by
    rw [hkA, hkB]
    decide
  have hnB : findNeighborHit
      [(computeBucketKey (5759/131072) 0,
        { bucketKey := computeBucketKey (5759/131072) 0, lat := 5759/131072,
          long := 0,
          weatherSummary := buildSummary ⟨some ⟨some [⟨some "Clouds"⟩], some 20⟩⟩,
          fetchedAt := 0, expiresAt := 0 + FRESH_TTL_MS })] 1 (11647/131072) 0
      (neighborKeys (computeBucketKey (11647/131072) 0)) = none :=
    findNeighborHit_singleton_miss hmemne
  have h2 := @getWeather_fetch_success _ "b" 1 (11647/131072) 0 "k"
    ⟨some ⟨some [⟨some "Rain"⟩], some 25⟩⟩ huB hsB hnB
  refine ⟨hdist, ?_, ?_, ?_⟩
  · rw [hst1, h2]
  · rw [hst1, h2]
  · intro hcontra
    exact absurd (congrArg WeatherSummary.condition hcontra) (by decide)

end Dashboard
